import Mathlib

/-!
# Verification of the JobsearchAI job-matching core

A shallow embedding, in Lean 4, of the job-matching core of the JobsearchAI
repository: the in-memory vector similarity engine (`src/lib/vectorDB.ts`),
the keyed session store (`src/lib/memoryBank.ts`), the site-preference filter
(`src/lib/jobSiteFilter.ts`) and the scoring pass of the job matcher
(`src/hooks/useJobMatcher.ts`).

Modelling conventions:

* JavaScript numbers are modelled by `JsNum`: either a rational value, one of
  the two infinities, or `NaN`.  The arithmetic operations defined on `JsNum`
  are exactly the ones the translated code paths use, with IEEE-754 special
  value propagation (`NaN` propagates; `0/0 = NaN`; `x/0 = ±∞` for `x ≠ 0`;
  `Math.min`/`Math.max` return `NaN` when an argument is `NaN`).
* `Math.sqrt` is not rational-valued, so it enters the model as an explicit
  function parameter `sqrt : ℚ → ℚ`; theorems that depend on a property of
  the real square root (such as `Math.sqrt 0 = 0`) take that property as a
  hypothesis.  No theorem below needs `(sqrt x)^2 = x`.
* JavaScript strings are Lean `String`s; `toLowerCase` is modelled on the
  ASCII range and the class `\s` of the split regex by the ASCII whitespace
  characters, which is faithful for all inputs the claims touch.
* `Array.prototype.sort` with a numeric comparator is observationally a
  stable sort by the comparator; it is modelled by the structurally
  recursive stable insertion sort `sortBy`.
* `undefined` / optional object fields are modelled by `Option`;
  JavaScript truthiness of an optional string (`undefined` and `""` are
  falsy) is `strTruthy`.
-/

namespace JobsearchAI

/-- Model of a JavaScript number as used on the similarity code paths:
a rational value, `NaN`, or one of the infinities. -/
inductive JsNum where
  | nan : JsNum
  | posInf : JsNum
  | negInf : JsNum
  | val : ℚ → JsNum
deriving DecidableEq, Repr

namespace JsNum

/-- JavaScript division `n / d` of two finite numbers: `0/0` is `NaN`,
`n/0` for `n ≠ 0` is a signed infinity, otherwise exact division. -/
def jsDiv (n d : ℚ) : JsNum :=
  if d = 0 then
    if n = 0 then nan else if 0 < n then posInf else negInf
  else val (n / d)

/-- `x + 1` on JavaScript numbers. -/
def add1 : JsNum → JsNum
  | nan => nan
  | posInf => posInf
  | negInf => negInf
  | val q => val (q + 1)

/-- `x / 2` on JavaScript numbers. -/
def half : JsNum → JsNum
  | nan => nan
  | posInf => posInf
  | negInf => negInf
  | val q => val (q / 2)

/-- `x * 100` on JavaScript numbers. -/
def mul100 : JsNum → JsNum
  | nan => nan
  | posInf => posInf
  | negInf => negInf
  | val q => val (q * 100)

/-- `Math.min(100, x)`: `NaN` if `x` is `NaN`. -/
def min100 : JsNum → JsNum
  | nan => nan
  | posInf => val 100
  | negInf => negInf
  | val q => val (min 100 q)

/-- `Math.max(0, x)`: `NaN` if `x` is `NaN`. -/
def max0 : JsNum → JsNum
  | nan => nan
  | posInf => posInf
  | negInf => val 0
  | val q => val (max 0 q)

/-- `Math.round(x * 100) / 100` — round to two decimal places.
`Math.round` rounds halves toward positive infinity: `⌊x + 1/2⌋`. -/
def round2 : JsNum → JsNum
  | nan => nan
  | posInf => posInf
  | negInf => negInf
  | val q => val ((⌊q * 100 + 1 / 2⌋ : ℤ) / 100)

/-- The comparison `x > 0` on JavaScript numbers (`NaN > 0` is false). -/
def gtZero : JsNum → Bool
  | nan => false
  | posInf => true
  | negInf => false
  | val q => decide (0 < q)

/-- The rational carried by a finite `JsNum` (`0` otherwise).  Used only to
state orderings of score lists, all of whose members are finite values. -/
def toQ : JsNum → ℚ
  | val q => q
  | _ => 0

end JsNum

/-- JavaScript truthiness of a possibly-`undefined` string:
`undefined` and `""` are falsy. -/
def strTruthy : Option String → Bool
  | none => false
  | some s => !(s == "")

/-- JavaScript `opt || dflt` for a possibly-`undefined` string:
the default is taken when the string is `undefined` or empty. -/
def strOr (o : Option String) (dflt : String) : String :=
  match o with
  | none => dflt
  | some s => if s = "" then dflt else s

/-! ## A stable insertion sort, modelling `Array.prototype.sort`

`xs.sort((a, b) => k(b) - k(a))` on a list of records with finite numeric
keys produces a stable reordering that is non-increasing in the key; any
stable sort by the corresponding boolean relation is observationally the
same function.  `sortBy le` is the textbook stable insertion sort. -/

/-- Insert `a` into `l`, before the first element `b` with `le a b`. -/
def insertBy (le : α → α → Bool) (a : α) : List α → List α
  | [] => [a]
  | b :: l => if le a b then a :: b :: l else b :: insertBy le a l

/-- Stable insertion sort by the boolean relation `le`. -/
def sortBy (le : α → α → Bool) : List α → List α
  | [] => []
  | a :: l => insertBy le a (sortBy le l)

theorem insertBy_perm (le : α → α → Bool) (a : α) (l : List α) :
    List.Perm (insertBy le a l) (a :: l) := by
  induction l with
  | nil => simp [insertBy]
  | cons b l ih =>
    by_cases h : le a b
    · rw [insertBy, if_pos h]
    · rw [insertBy, if_neg h]
      exact (ih.cons b).trans (List.Perm.swap a b l)

theorem sortBy_perm (le : α → α → Bool) (l : List α) :
    List.Perm (sortBy le l) l := by
  induction l with
  | nil => simp [sortBy]
  | cons a l ih => exact (insertBy_perm le a (sortBy le l)).trans (ih.cons a)

theorem mem_sortBy {le : α → α → Bool} {l : List α} {a : α} :
    a ∈ sortBy le l ↔ a ∈ l :=
  (sortBy_perm le l).mem_iff

theorem pairwise_insertBy {le : α → α → Bool}
    (htotal : ∀ a b, le a b || le b a)
    (htrans : ∀ a b c, le a b → le b c → le a c)
    {l : List α} {a : α} (h : l.Pairwise (le · ·)) :
    (insertBy le a l).Pairwise (le · ·) := by
  induction l with
  | nil => simp [insertBy]
  | cons b l ih =>
    rcases List.pairwise_cons.mp h with ⟨hb, hl⟩
    by_cases hab : le a b
    · rw [insertBy, if_pos hab]
      refine List.pairwise_cons.mpr ⟨?_, h⟩
      intro x hx
      rcases List.mem_cons.mp hx with rfl | hx
      · exact hab
      · exact htrans a b x hab (hb x hx)
    · have hba : le b a := by
        have := htotal a b
        simp [hab] at this
        exact this
      rw [insertBy, if_neg hab]
      refine List.pairwise_cons.mpr ⟨?_, ih hl⟩
      intro x hx
      have hx' : x = a ∨ x ∈ l := by
        have := (insertBy_perm le a l).mem_iff.mp hx
        simpa using this
      rcases hx' with rfl | hx'
      · exact hba
      · exact hb x hx'

theorem pairwise_sortBy {le : α → α → Bool}
    (htotal : ∀ a b, le a b || le b a)
    (htrans : ∀ a b c, le a b → le b c → le a c)
    (l : List α) : (sortBy le l).Pairwise (le · ·) := by
  induction l with
  | nil => simp [sortBy]
  | cons a l ih => exact pairwise_insertBy htotal htrans ih

/-! ## Text embedding (`VectorDB.generateEmbedding`)

```
const words = text.toLowerCase().split(/\s+/)
const wordFreq: Record<string, number> = {}
words.forEach(word => { wordFreq[word] = (wordFreq[word] || 0) + 1 })
const allWords = Array.from(new Set(words))
const embedding = new Array(128).fill(0)
allWords.forEach((word, idx) => {
  if (idx < 128) { embedding[idx] = wordFreq[word] / words.length }
})
return embedding
```

`"".split(/\s+/)` is `[""]` (the regex cannot match the empty string, so the
whole input is returned as a single piece); leading and trailing whitespace
produce empty pieces, and interior whitespace runs separate pieces. -/

/-- ASCII whitespace, modelling the characters of the regex class `\s`
relevant to this code base. -/
def isWs (c : Char) : Bool :=
  c == ' ' || c == '\t' || c == '\n' || c == '\r' || c == '\x0b' || c == '\x0c'

mutual

/-- `split(/\s+/)` scanner: accumulating the current piece (reversed). -/
def splitWsAux : List Char → List Char → List (List Char)
  | [], acc => [acc.reverse]
  | c :: rest, acc =>
    if isWs c then acc.reverse :: splitWsSkip rest
    else splitWsAux rest (c :: acc)

/-- `split(/\s+/)` scanner: just consumed a whitespace run separator. -/
def splitWsSkip : List Char → List (List Char)
  | [] => [[]]
  | c :: rest =>
    if isWs c then splitWsSkip rest
    else splitWsAux rest [c]

end

/-- JavaScript `s.split(/\s+/)` on an ASCII-whitespace model. -/
def jsSplitWs (s : String) : List String :=
  (splitWsAux s.data []).map fun cs => String.mk cs

/-- ASCII model of `toLowerCase` on a single character. -/
def jsToLowerChar (c : Char) : Char :=
  if 65 ≤ c.toNat ∧ c.toNat ≤ 90 then Char.ofNat (c.toNat + 32) else c

/-- ASCII model of `String.prototype.toLowerCase`. -/
def jsToLower (s : String) : String :=
  String.mk (s.data.map jsToLowerChar)

/-- First-appearance deduplication: `Array.from(new Set(words))`. -/
def dedupFirst : List String → List String → List String
  | [], _ => []
  | w :: ws, seen =>
    if w ∈ seen then dedupFirst ws seen else w :: dedupFirst ws (w :: seen)

/-- The token list `text.toLowerCase().split(/\s+/)`. -/
def embedWords (text : String) : List String :=
  jsSplitWs (jsToLower text)

/-- `VectorDB.generateEmbedding`: term-frequency vector of length 128.
Slot `i` holds the frequency (count over total token count) of the `i`-th
distinct token, distinct tokens taken in order of first appearance and
tokens beyond slot 128 dropped; unused slots are 0. -/
def generateEmbedding (text : String) : List ℚ :=
  (List.range 128).map fun i =>
    match (dedupFirst (embedWords text) [])[i]? with
    | some w => ((embedWords text).count w : ℚ) / ((embedWords text).length : ℚ)
    | none => 0

/-! ## The vector store (`VectorDB`) -/

/-- The `metadata` record attached to a vector; the code only ever reads the
fields modelled here (`Record<string, any>` in the source). -/
structure Metadata where
  type : Option String := none
  jobId : Option String := none
  title : Option String := none
  company : Option String := none
  filename : Option String := none
deriving DecidableEq, Repr

/-- An entry of the in-memory vector store
(`{ id, embedding, text, metadata? }`). -/
structure Vector where
  id : String
  embedding : List ℚ
  text : String
  metadata : Option Metadata := none
deriving DecidableEq, Repr

/-- `VectorDB.cosineSimilarity`: returns the number `0` when the lengths
differ, otherwise `dot / (Math.sqrt(normA) * Math.sqrt(normB))` with
JavaScript division (`0/0 = NaN`).  `Math.sqrt` is the parameter `sqrt`. -/
def cosineSimilarity (sqrt : ℚ → ℚ) (a b : List ℚ) : JsNum :=
  if a.length ≠ b.length then JsNum.val 0
  else
    let dot := (List.zipWith (· * ·) a b).sum
    let normA := (a.map fun x => x * x).sum
    let normB := (b.map fun x => x * x).sum
    JsNum.jsDiv dot (sqrt normA * sqrt normB)

/-- The test `vector.metadata?.type === 'job'`. -/
def isJobVector (v : Vector) : Bool :=
  match v.metadata with
  | some m => m.type == some "job"
  | none => false

/-- One element of the result of `findSimilarJobs`. -/
structure JobMatch where
  jobId : Option String
  score : JsNum
  metadata : Metadata
deriving DecidableEq, Repr

/-- The score remap of `findSimilarJobs`:
`Math.round(Math.max(0, Math.min(100, ((similarity + 1) / 2) * 100)) * 100) / 100`. -/
def matchScoreOfSim (s : JsNum) : JsNum :=
  JsNum.round2 (JsNum.max0 (JsNum.min100 (JsNum.mul100 (JsNum.half (JsNum.add1 s)))))

/-- Descending-score comparator of `findSimilarJobs`'s
`.sort((a, b) => b.score - a.score)`.  Every score that reaches the sort is a
finite value (`NaN` scores fail the preceding `score > 0` filter and the
clamp eliminates infinities), so comparing `JsNum.toQ` is faithful. -/
def scoreDesc (a b : JobMatch) : Bool :=
  decide (b.score.toQ ≤ a.score.toQ)

/-- `VectorDB.findSimilarJobs(userEmbedding, limit)` over the in-memory
vector list `db`: restrict to `type === 'job'` entries, remap cosine
similarity to a 0–100 score, keep entries with a truthy `jobId` and a
positive score, sort by score descending, truncate to `limit`. -/
def findSimilarJobs (sqrt : ℚ → ℚ) (db : List Vector)
    (userEmbedding : List ℚ) (limit : ℕ) : List JobMatch :=
  let jobVectors := db.filter isJobVector
  let results := jobVectors.map fun v =>
    let similarity := cosineSimilarity sqrt userEmbedding v.embedding
    { jobId := v.metadata.bind Metadata.jobId
      score := matchScoreOfSim similarity
      metadata := v.metadata.getD {} : JobMatch }
  let filtered := results.filter fun r => strTruthy r.jobId && r.score.gtZero
  (sortBy scoreDesc filtered).take limit

/-! ## Helper lemmas -/

theorem generateEmbedding_length (text : String) :
    (generateEmbedding text).length = 128 := by
  simp [generateEmbedding]

theorem embedWords_empty : embedWords "" = [""] := by decide

theorem generateEmbedding_empty :
    generateEmbedding "" = (1 : ℚ) :: List.replicate 127 0 := by
  have hd : dedupFirst (embedWords "") [] = [""] := by rw [embedWords_empty]; decide
  have hd1 : dedupFirst [""] [] = [""] := by decide
  rw [generateEmbedding]
  rw [show (128 : ℕ) = 127 + 1 from rfl, List.range_succ_eq_map]
  rw [List.map_cons, List.map_map]
  simp only [hd, embedWords_empty]
  norm_num
  constructor
  · rw [hd1]
    norm_num
  · rw [List.eq_replicate_iff]
    refine ⟨by simp, fun b hb => ?_⟩
    simp only [List.mem_map, Function.comp_apply] at hb
    obtain ⟨i, _, hi⟩ := hb
    rw [hd1] at hi
    simpa using hi.symm

theorem matchScoreOfSim_val_zero : matchScoreOfSim (JsNum.val 0) = JsNum.val 50 := by
  simp only [matchScoreOfSim, JsNum.add1, JsNum.half, JsNum.mul100, JsNum.min100,
    JsNum.max0, JsNum.round2]
  norm_num

/-- Every remapped score is `NaN` or a rational in `[0, 100]`. -/
theorem matchScoreOfSim_cases (s : JsNum) :
    matchScoreOfSim s = JsNum.nan ∨
      ∃ q : ℚ, matchScoreOfSim s = JsNum.val q ∧ 0 ≤ q ∧ q ≤ 100 := by
  have round_bounds : ∀ y : ℚ, 0 ≤ y → y ≤ 100 →
      (0 : ℚ) ≤ (⌊y * 100 + 1 / 2⌋ : ℤ) / 100 ∧ ((⌊y * 100 + 1 / 2⌋ : ℤ) : ℚ) / 100 ≤ 100 := by
    intro y hy0 hy100
    have h1 : (0 : ℤ) ≤ ⌊y * 100 + 1 / 2⌋ := by
      rw [Int.le_floor]
      push_cast
      nlinarith
    have h2 : ⌊y * 100 + 1 / 2⌋ ≤ 10000 := by
      have : (⌊y * 100 + 1 / 2⌋ : ℚ) ≤ y * 100 + 1 / 2 := Int.floor_le _
      have hlt : (⌊y * 100 + 1 / 2⌋ : ℚ) < 10001 := by nlinarith
      exact_mod_cast Int.lt_add_one_iff.mp (by exact_mod_cast hlt)
    constructor
    · positivity
    · rw [div_le_iff₀ (by norm_num : (0:ℚ) < 100)]
      calc ((⌊y * 100 + 1 / 2⌋ : ℤ) : ℚ) ≤ (10000 : ℚ) := by exact_mod_cast h2
        _ = 100 * 100 := by norm_num
  cases s with
  | nan => exact Or.inl rfl
  | posInf =>
    refine Or.inr ⟨100, ?_, by norm_num, le_refl _⟩
    simp only [matchScoreOfSim, JsNum.add1, JsNum.half, JsNum.mul100, JsNum.min100,
      JsNum.max0, JsNum.round2]
    norm_num
  | negInf =>
    refine Or.inr ⟨0, ?_, le_refl _, by norm_num⟩
    simp only [matchScoreOfSim, JsNum.add1, JsNum.half, JsNum.mul100, JsNum.min100,
      JsNum.max0, JsNum.round2]
    norm_num
  | val q =>
    set y : ℚ := max 0 (min 100 ((q + 1) / 2 * 100)) with hy
    have hy0 : 0 ≤ y := le_max_left 0 _
    have hy100 : y ≤ 100 := by
      apply max_le (by norm_num)
      exact min_le_left _ _
    obtain ⟨hb0, hb100⟩ := round_bounds y hy0 hy100
    refine Or.inr ⟨(⌊y * 100 + 1 / 2⌋ : ℤ) / 100, ?_, hb0, hb100⟩
    simp only [matchScoreOfSim, JsNum.add1, JsNum.half, JsNum.mul100, JsNum.min100,
      JsNum.max0, JsNum.round2, hy]

theorem scoreDesc_total (a b : JobMatch) : scoreDesc a b || scoreDesc b a := by
  simp only [scoreDesc, Bool.or_eq_true, decide_eq_true_eq]
  exact le_total b.score.toQ a.score.toQ

theorem scoreDesc_trans (a b c : JobMatch) :
    scoreDesc a b → scoreDesc b c → scoreDesc a c := by
  simp only [scoreDesc, decide_eq_true_eq]
  intro h1 h2
  exact le_trans h2 h1

/-- Decomposition of membership in the result of `findSimilarJobs`. -/
theorem mem_findSimilarJobs {sqrt : ℚ → ℚ} {db : List Vector}
    {query : List ℚ} {limit : ℕ} {r : JobMatch}
    (h : r ∈ findSimilarJobs sqrt db query limit) :
    (∃ v, v ∈ db ∧ isJobVector v = true ∧
        r = { jobId := v.metadata.bind Metadata.jobId
              score := matchScoreOfSim (cosineSimilarity sqrt query v.embedding)
              metadata := v.metadata.getD {} }) ∧
    strTruthy r.jobId = true ∧ r.score.gtZero = true := by
  simp only [findSimilarJobs] at h
  have h1 := List.take_subset limit _ h
  have h2 := mem_sortBy.mp h1
  rw [List.mem_filter] at h2
  obtain ⟨hmem, hpred⟩ := h2
  rw [List.mem_map] at hmem
  obtain ⟨v, hv, hr⟩ := hmem
  rw [List.mem_filter] at hv
  simp only [Bool.and_eq_true] at hpred
  exact ⟨⟨v, hv.1, hv.2, hr.symm⟩, hpred.1, hpred.2⟩

/-! ## Claim theorems for the similarity engine -/

/-- C1: for every query vector and limit, `findSimilarJobs` returns only
entries tagged `type="job"` whose `jobId` is present (truthy), each with
score equal to the cosine similarity remapped by `((s+1)/2)*100`, clamped to
`[0,100]` and rounded to 2 decimals (`matchScoreOfSim`); entries with score
not greater than 0 are filtered out (every returned score is positive), the
result is non-increasing in score, and it has at most `limit` elements. -/
theorem C1_findSimilarJobs_contract (sqrt : ℚ → ℚ) (db : List Vector)
    (query : List ℚ) (limit : ℕ) :
    (∀ r ∈ findSimilarJobs sqrt db query limit,
      (∃ v, v ∈ db ∧ isJobVector v = true ∧
        r.jobId = v.metadata.bind Metadata.jobId ∧
        r.score = matchScoreOfSim (cosineSimilarity sqrt query v.embedding)) ∧
      strTruthy r.jobId = true ∧
      ∃ q : ℚ, r.score = JsNum.val q ∧ 0 < q ∧ q ≤ 100) ∧
    (findSimilarJobs sqrt db query limit).Pairwise
      (fun a b => b.score.toQ ≤ a.score.toQ) ∧
    (findSimilarJobs sqrt db query limit).length ≤ limit := by
  refine ⟨?_, ?_, ?_⟩
  · intro r hr
    obtain ⟨⟨v, hvdb, hvjob, hrv⟩, htruthy, hgt⟩ := mem_findSimilarJobs hr
    refine ⟨⟨v, hvdb, hvjob, by rw [hrv], by rw [hrv]⟩, htruthy, ?_⟩
    have hscore : r.score = matchScoreOfSim (cosineSimilarity sqrt query v.embedding) := by
      rw [hrv]
    rcases matchScoreOfSim_cases (cosineSimilarity sqrt query v.embedding) with hnan | ⟨q, hq, hq0, hq100⟩
    · rw [hscore, hnan] at hgt
      simp [JsNum.gtZero] at hgt
    · refine ⟨q, by rw [hscore, hq], ?_, hq100⟩
      rw [hscore, hq] at hgt
      simpa [JsNum.gtZero] using hgt
  · simp only [findSimilarJobs]
    refine List.Pairwise.imp ?_
      (List.Pairwise.sublist (List.take_sublist _ _)
        (pairwise_sortBy scoreDesc_total scoreDesc_trans _))
    intro a b h
    simpa [scoreDesc, decide_eq_true_eq] using h
  · simp only [findSimilarJobs]
    rw [List.length_take]
    exact min_le_left _ _

/-- C2 counterexample: on the empty text the embedding is **not** the
all-zero vector — `"".split(/\s+/)` is `[""]`, so the empty token receives
frequency 1 in slot 0. -/
theorem C2_counterexample :
    generateEmbedding "" ≠ List.replicate 128 0 := by
  rw [generateEmbedding_empty, show (128 : ℕ) = 127 + 1 from rfl,
    List.replicate_succ]
  intro h
  have := List.cons_eq_cons.mp h
  norm_num at this

/-- C2 (amended): the embedding function is total (never raises) and always
returns a vector of length 128; for the empty text that vector has first
slot 1 (the frequency of the single empty token) and the 127 remaining
slots 0 — not the all-zero vector. -/
theorem C2_embedding_total_and_empty :
    (∀ text : String, (generateEmbedding text).length = 128) ∧
    generateEmbedding "" = (1 : ℚ) :: List.replicate 127 0 :=
  ⟨generateEmbedding_length, generateEmbedding_empty⟩

/-- C3 counterexample: for the all-zero vectors `[0]` and `[0]` the code
divides `0 / (Math.sqrt 0 * Math.sqrt 0) = 0 / 0`, which is `NaN`, not `0`.
(The model square root agrees with `Math.sqrt` at `0`, the only point
evaluated.) -/
theorem C3_counterexample :
    cosineSimilarity (fun q => q) [0] [0] = JsNum.nan ∧
    cosineSimilarity (fun q => q) [0] [0] ≠ JsNum.val 0 := by
  constructor
  · simp [cosineSimilarity, JsNum.jsDiv]
  · simp [cosineSimilarity, JsNum.jsDiv]

theorem zipWith_mul_sum_zero (a b : List ℚ) (ha : ∀ x ∈ a, x = 0) :
    (List.zipWith (· * ·) a b).sum = 0 := by
  induction a generalizing b with
  | nil => simp
  | cons x xs ih =>
    cases b with
    | nil => simp
    | cons y ys =>
      rw [List.zipWith_cons_cons, List.sum_cons,
        ha x (by simp), ih ys (fun z hz => ha z (by simp [hz])), zero_mul, zero_add]

/-- C3 (amended): the cosine-similarity computation returns the number 0 for
two vectors of mismatched length; but when both vectors are all-zero it
returns `NaN` (the division `0/0` propagates), not 0. -/
theorem C3_cosine_mismatch_and_zero (sqrt : ℚ → ℚ) (a b : List ℚ) :
    (a.length ≠ b.length → cosineSimilarity sqrt a b = JsNum.val 0) ∧
    (sqrt 0 = 0 → a.length = b.length →
      (∀ x ∈ a, x = 0) → (∀ x ∈ b, x = 0) →
      cosineSimilarity sqrt a b = JsNum.nan) := by
  constructor
  · intro h
    rw [cosineSimilarity, if_pos h]
  · intro hsqrt hlen ha _
    have hnormA : (a.map fun x => x * x).sum = 0 := by
      apply List.sum_eq_zero
      intro x hx
      obtain ⟨y, hy, rfl⟩ := List.mem_map.mp hx
      rw [ha y hy]
      ring
    have hdot : (List.zipWith (· * ·) a b).sum = 0 :=
      zipWith_mul_sum_zero a b ha
    simp only [cosineSimilarity, hlen, ne_eq, not_true_eq_false, if_false,
      hnormA, hsqrt, hdot, zero_mul]
    simp [JsNum.jsDiv]

theorem C3_cosine_witness :
    cosineSimilarity (fun q => q) [] [0] = JsNum.val 0 ∧
    cosineSimilarity (fun q => q) [0] [0] = JsNum.nan := by
  constructor
  · exact (C3_cosine_mismatch_and_zero (fun q => q) [] [0]).1 (by decide)
  · exact (C3_cosine_mismatch_and_zero (fun q => q) [0] [0]).2 rfl rfl
      (by intro x hx; simpa using hx) (by intro x hx; simpa using hx)

/-- C9 counterexample: a `type="job"` entry whose embedding length differs
from the query's is **not** always included in the results: it is dropped
when its `jobId` is absent (first conjunct), and truncated away when `limit`
is smaller than the number of job entries (second conjunct, `limit = 0`). -/
theorem C9_counterexample :
    findSimilarJobs (fun q => q)
      [{ id := "v0", embedding := [1], text := "t",
         metadata := some { type := some "job" } }] [] 5 = [] ∧
    findSimilarJobs (fun q => q)
      [{ id := "v1", embedding := [1], text := "t",
         metadata := some { type := some "job", jobId := some "j1" } }] [] 0 = [] := by
  constructor
  · simp [findSimilarJobs, isJobVector, strTruthy, sortBy]
  · simp [findSimilarJobs]

/-- C9 (amended): every stored entry tagged `type="job"` whose embedding
length differs from the query vector's is assigned cosine similarity 0,
hence match score exactly 50, and — provided its `jobId` is present and
`limit` is at least the number of job-tagged entries — the malformed entry
appears in the results (score 50 > 0) rather than being excluded. -/
theorem C9_mismatched_entry_scores_fifty (sqrt : ℚ → ℚ) (db : List Vector)
    (query : List ℚ) (limit : ℕ) (v : Vector)
    (hv : v ∈ db) (hjob : isJobVector v = true)
    (hid : strTruthy (v.metadata.bind Metadata.jobId) = true)
    (hlen : query.length ≠ v.embedding.length)
    (hlimit : (db.filter isJobVector).length ≤ limit) :
    cosineSimilarity sqrt query v.embedding = JsNum.val 0 ∧
    ∃ r ∈ findSimilarJobs sqrt db query limit,
      r.jobId = v.metadata.bind Metadata.jobId ∧ r.score = JsNum.val 50 := by
  have hsim : cosineSimilarity sqrt query v.embedding = JsNum.val 0 := by
    rw [cosineSimilarity, if_pos hlen]
  refine ⟨hsim, ?_⟩
  set r : JobMatch :=
    { jobId := v.metadata.bind Metadata.jobId
      score := matchScoreOfSim (cosineSimilarity sqrt query v.embedding)
      metadata := v.metadata.getD {} } with hr
  have hscore : r.score = JsNum.val 50 := by
    rw [hr]
    show matchScoreOfSim _ = _
    rw [hsim]
    exact matchScoreOfSim_val_zero
  have hrmem : r ∈ (db.filter isJobVector).map fun v =>
      ({ jobId := v.metadata.bind Metadata.jobId
         score := matchScoreOfSim (cosineSimilarity sqrt query v.embedding)
         metadata := v.metadata.getD {} } : JobMatch) :=
    List.mem_map_of_mem _ (List.mem_filter.mpr ⟨hv, hjob⟩)
  have hpred : (strTruthy r.jobId && r.score.gtZero) = true := by
    rw [Bool.and_eq_true]
    refine ⟨hid, ?_⟩
    rw [hscore]
    simp [JsNum.gtZero]
  have hfilt : r ∈ List.filter (fun r => strTruthy r.jobId && r.score.gtZero)
      ((db.filter isJobVector).map fun v =>
        ({ jobId := v.metadata.bind Metadata.jobId
           score := matchScoreOfSim (cosineSimilarity sqrt query v.embedding)
           metadata := v.metadata.getD {} } : JobMatch)) :=
    List.mem_filter.mpr ⟨hrmem, hpred⟩
  refine ⟨r, ?_, rfl, hscore⟩
  simp only [findSimilarJobs]
  rw [List.take_of_length_le]
  · exact mem_sortBy.mpr hfilt
  · calc (sortBy scoreDesc _).length
        = _ := (sortBy_perm scoreDesc _).length_eq
      _ ≤ ((db.filter isJobVector).map fun v =>
            ({ jobId := v.metadata.bind Metadata.jobId
               score := matchScoreOfSim (cosineSimilarity sqrt query v.embedding)
               metadata := v.metadata.getD {} } : JobMatch)).length :=
          List.length_filter_le _ _
      _ = (db.filter isJobVector).length := List.length_map _ _
      _ ≤ limit := hlimit

theorem C9_witness :
    cosineSimilarity (fun q => q) [] [1] = JsNum.val 0 ∧
    ∃ r ∈ findSimilarJobs (fun q => q)
        [{ id := "v1", embedding := [1], text := "t",
           metadata := some { type := some "job", jobId := some "j1" } }] [] 1,
      r.jobId = ((some { type := some "job", jobId := some "j1" } : Option Metadata).bind
        Metadata.jobId) ∧ r.score = JsNum.val 50 :=
  C9_mismatched_entry_scores_fifty (fun q => q)
    [{ id := "v1", embedding := [1], text := "t",
       metadata := some { type := some "job", jobId := some "j1" } }]
    [] 1
    { id := "v1", embedding := [1], text := "t",
      metadata := some { type := some "job", jobId := some "j1" } }
    (by simp) (by decide) (by decide) (by decide) (by decide)

/-! ## Jobs and the site-preference filter (`jobSiteFilter.ts`)

The `Job` record of `src/types/session.ts` (its opaque `rawData:
Record<string, any>` payload, never read by the verified code, is not
modelled).  A `JobSiteSettings` preference map is an association list from
site name to the preference string `"include" | "exclude" | "neutral"`,
standing for the JavaScript object (unique keys). -/

structure CustomLink where
  label : String
  url : String
deriving DecidableEq, Repr

structure PrepTask where
  id : String
  title : String
  description : Option String := none
  completed : Bool
  priority : Option String := none
deriving DecidableEq, Repr

structure Job where
  id : String
  title : String
  company : String
  url : String
  description : Option String := none
  matchScore : Option ℚ := none
  summary : Option String := none
  prepTasks : Option (List PrepTask) := none
  createdAt : Option String := none
  source : Option String := none
  isFavorite : Option Bool := none
  applicationStatus : Option String := none
  notes : Option String := none
  customLinks : Option (List CustomLink) := none
  supportingMaterials : Option (List CustomLink) := none
  appliedDate : Option String := none
  updatedAt : Option String := none
  jobSite : Option String := none
deriving DecidableEq, Repr

/-- Lookup `preferences[siteName]` in the preference object. -/
def prefLookup (prefs : List (String × String)) (site : String) : Option String :=
  (prefs.find? fun p => p.1 == site).map Prod.snd

/-- `preferences[job.jobSite || 'Unknown']`. -/
def jobPref (prefs : List (String × String)) (job : Job) : Option String :=
  prefLookup prefs (strOr job.jobSite "Unknown")

/-- The partitioning loop of `filterAndPrioritizeJobs`:
`(included, excluded, neutral)`, each bucket in input order. -/
def partitionJobs (prefs : List (String × String)) :
    List Job → List Job × List Job × List Job
  | [] => ([], [], [])
  | j :: rest =>
    let r := partitionJobs prefs rest
    if jobPref prefs j = some "exclude" then (r.1, j :: r.2.1, r.2.2)
    else if jobPref prefs j = some "include" then (j :: r.1, r.2.1, r.2.2)
    else (r.1, r.2.1, j :: r.2.2)

/-- `filterAndPrioritizeJobs(jobs, preferences)`: identity on an empty
preference map, otherwise included jobs first, then neutral jobs; excluded
jobs are dropped. -/
def filterAndPrioritizeJobs (jobs : List Job)
    (preferences : List (String × String)) : List Job :=
  if preferences.length = 0 then jobs
  else
    let p := partitionJobs preferences jobs
    p.1 ++ p.2.2

theorem partitionJobs_eq_filters (prefs : List (String × String)) (jobs : List Job) :
    partitionJobs prefs jobs =
      (jobs.filter (fun j => jobPref prefs j == some "include"),
       jobs.filter (fun j => jobPref prefs j == some "exclude"),
       jobs.filter fun j =>
         !(jobPref prefs j == some "include") && !(jobPref prefs j == some "exclude")) := by
  induction jobs with
  | nil => simp [partitionJobs]
  | cons j rest ih =>
    rw [partitionJobs, ih]
    by_cases hex : jobPref prefs j = some "exclude"
    · simp [hex]
    · by_cases hin : jobPref prefs j = some "include"
      · simp [hex, hin]
      · simp [hex, hin]

/-- C7: `filterAndPrioritize` returns the input list unchanged when the
preference map is empty; otherwise it drops every job whose site (the job's
`jobSite`, defaulting to `"Unknown"` when absent or empty) has preference
`"exclude"`, and returns the jobs with preference `"include"` followed by
the neutral jobs (no entry, or any value other than `"include"`/`"exclude"`),
each bucket retaining its relative input order — stated via order-preserving
`filter`s of the input. -/
theorem C7_filterAndPrioritize_contract (jobs : List Job)
    (prefs : List (String × String)) :
    (prefs = [] → filterAndPrioritizeJobs jobs prefs = jobs) ∧
    (prefs ≠ [] → filterAndPrioritizeJobs jobs prefs =
      jobs.filter (fun j => jobPref prefs j == some "include") ++
      jobs.filter fun j =>
        !(jobPref prefs j == some "include") && !(jobPref prefs j == some "exclude")) := by
  constructor
  · intro h
    simp [filterAndPrioritizeJobs, h]
  · intro h
    have hlen : prefs.length ≠ 0 := by simpa using h
    simp only [filterAndPrioritizeJobs, if_neg hlen, partitionJobs_eq_filters]

theorem C7_witness :
    filterAndPrioritizeJobs
      [{ id := "a", title := "A", company := "c", url := "u", jobSite := some "X" },
       { id := "b", title := "B", company := "c", url := "u", jobSite := some "Y" }]
      [("X", "exclude")]
    = [{ id := "b", title := "B", company := "c", url := "u", jobSite := some "Y" }] := by
  rw [(C7_filterAndPrioritize_contract
    [{ id := "a", title := "A", company := "c", url := "u", jobSite := some "X" },
     { id := "b", title := "B", company := "c", url := "u", jobSite := some "Y" }]
    [("X", "exclude")]).2 (by decide)]
  decide

/-! ## The session store (`memoryBank.ts`)

`MemoryBank` persists `Session` records in the `sessions` partition of the
durable store, keyed by `userId`.  The durable adapter itself
(`src/lib/storage.ts`) is not part of the sources; it is modelled from the
spec below.  Timestamps (`new Date().toISOString()`) and generated ids
enter as explicit parameters `now` / `genId`. -/

structure UserProfile where
  name : Option String := none
  currentTitle : Option String := none
  yearsExperience : Option ℚ := none
  targetSalary : Option ℚ := none
  preferredLocations : Option (List String) := none
  remotePreference : Option String := none
  techStack : Option (List String) := none
  roleKeywords : Option (List String) := none
deriving DecidableEq, Repr

structure CustomJobSite where
  name : String
  domains : List String
deriving DecidableEq, Repr

structure UserSettings where
  jobSitePreferences : Option (List (String × String)) := none
  customJobSites : Option (List CustomJobSite) := none
  createdAt : Option String := none
  updatedAt : Option String := none
deriving DecidableEq, Repr

structure Session where
  userId : String
  profile : Option UserProfile := none
  skills : Option (List String) := none
  seniority : Option String := none
  domains : Option (List String) := none
  resumeRaw : Option String := none
  jobs : Option (List Job) := none
  settings : Option UserSettings := none
  createdAt : String
  updatedAt : String
deriving DecidableEq, Repr

/-- `Partial<Session>`: every top-level key optional; an absent key is
`none`. -/
structure SessionPatch where
  userId : Option String := none
  profile : Option UserProfile := none
  skills : Option (List String) := none
  seniority : Option String := none
  domains : Option (List String) := none
  resumeRaw : Option String := none
  jobs : Option (List Job) := none
  settings : Option UserSettings := none
  createdAt : Option String := none
  updatedAt : Option String := none
deriving DecidableEq, Repr

/-- Error type of the store operations: `updateSession` throws when no
record exists for the key (`Session with userId ... not found`). -/
inductive MBError where
  | notFound (userId : String)
deriving DecidableEq, Repr

/-- Modelled from the spec: the durable PersistenceAdapter (`storage.ts` is
not among the sources) is "a durable key-value interface with
save/get/getAll/put/delete/clear over named partitions" whose records are
"keyed by string id"; a partition is a list of records and `put` replaces
the record with the same key in place, appending when the key is new. -/
def putByKey (key : α → String) (v : α) : List α → List α
  | [] => [v]
  | w :: ws => if key w == key v then v :: ws else w :: putByKey key v ws

/-- Modelled from the spec: `db.get(partition, key)` — the record stored
under the key, if any. -/
def getByKey (key : α → String) (l : List α) (k : String) : Option α :=
  l.find? fun w => key w == k

/-- Modelled from the spec: `db.delete(partition, key)` — removes the
record under the key; absent keys are a silent no-op. -/
def deleteByKey (key : α → String) (l : List α) (k : String) : List α :=
  l.filter fun w => !(key w == k)

/-- The `sessions` partition, keyed by `userId`. -/
def dbGet (store : List Session) (k : String) : Option Session :=
  getByKey Session.userId store k

def dbPut (store : List Session) (s : Session) : List Session :=
  putByKey Session.userId s store

/-- The shallow merge of `updateSession`:
`{ ...existing, ...updates, userId, updatedAt: now }` — keys present in
`updates` override, the trailing explicit fields pin `userId` to the
original key and bump `updatedAt`. -/
def mergeSession (existing : Session) (updates : SessionPatch)
    (userId now : String) : Session :=
  { userId := userId
    profile := updates.profile <|> existing.profile
    skills := updates.skills <|> existing.skills
    seniority := updates.seniority <|> existing.seniority
    domains := updates.domains <|> existing.domains
    resumeRaw := updates.resumeRaw <|> existing.resumeRaw
    jobs := updates.jobs <|> existing.jobs
    settings := updates.settings <|> existing.settings
    createdAt := updates.createdAt.getD existing.createdAt
    updatedAt := now }

/-- `MemoryBank.updateSession`: `NotFound` when no record exists, otherwise
shallow-merge and `put`. -/
def updateSession (store : List Session) (now userId : String)
    (updates : SessionPatch) : Except MBError (List Session) :=
  match dbGet store userId with
  | none => .error (.notFound userId)
  | some existing => .ok (dbPut store (mergeSession existing updates userId now))

/-- `MemoryBank.saveSession`: create the record (with exactly the fields
`userId`, `createdAt`, `updatedAt`, `profile`, `skills`, `resumeRaw`,
`jobs`) when the key is new, else behave as `updateSession`. -/
def saveSession (store : List Session) (now genId : String)
    (s : SessionPatch) : Except MBError (List Session × String) :=
  let userId := strOr s.userId genId
  let fullSession : Session :=
    { userId := userId
      createdAt := strOr s.createdAt now
      updatedAt := now
      profile := s.profile
      skills := s.skills
      resumeRaw := s.resumeRaw
      jobs := s.jobs }
  match dbGet store userId with
  | some _ => (updateSession store now userId s).map fun st => (st, userId)
  | none => .ok (dbPut store fullSession, userId)

/-- `MemoryBank.loadSession`. -/
def loadSession (store : List Session) (userId : String) : Option Session :=
  dbGet store userId

/-- The profile merge `{ ...existing.profile, ...profile }` of
`updateProfile` (spreading `undefined` contributes nothing). -/
def mergeProfile (old : Option UserProfile) (p : UserProfile) : UserProfile :=
  let o := old.getD {}
  { name := p.name <|> o.name
    currentTitle := p.currentTitle <|> o.currentTitle
    yearsExperience := p.yearsExperience <|> o.yearsExperience
    targetSalary := p.targetSalary <|> o.targetSalary
    preferredLocations := p.preferredLocations <|> o.preferredLocations
    remotePreference := p.remotePreference <|> o.remotePreference
    techStack := p.techStack <|> o.techStack
    roleKeywords := p.roleKeywords <|> o.roleKeywords }

/-- `MemoryBank.updateProfile`: bootstrap path — creates the session via
`saveSession` when the key is missing. -/
def updateProfile (store : List Session) (now genId userId : String)
    (p : UserProfile) : Except MBError (List Session) :=
  match dbGet store userId with
  | none =>
    (saveSession store now genId { userId := some userId, profile := some p }).map
      Prod.fst
  | some existing =>
    updateSession store now userId
      { profile := some (mergeProfile existing.profile p) }

/-- `MemoryBank.updateJobs`: whole-list replace via `updateSession`. -/
def updateJobs (store : List Session) (now userId : String) (jobs : List Job) :
    Except MBError (List Session) :=
  updateSession store now userId { jobs := some jobs }

/-- `MemoryBank.addJob`: upsert-by-id into `existing?.jobs || []`, then
`updateJobs`. -/
def addJob (store : List Session) (now userId : String) (job : Job) :
    Except MBError (List Session) :=
  let currentJobs := ((dbGet store userId).bind Session.jobs).getD []
  let newJobs :=
    match currentJobs.findIdx? (fun j => j.id == job.id) with
    | some i => currentJobs.set i job
    | none => currentJobs ++ [job]
  updateJobs store now userId newJobs

/-- `MemoryBank.updateSkills`. -/
def updateSkills (store : List Session) (now userId : String)
    (skills : List String) : Except MBError (List Session) :=
  updateSession store now userId { skills := some skills }

/-- `MemoryBank.updateResume`. -/
def updateResume (store : List Session) (now userId : String)
    (resumeRaw : String) : Except MBError (List Session) :=
  updateSession store now userId { resumeRaw := some resumeRaw }

/-- `MemoryBank.clearSession`: `db.delete`; absent keys are a no-op. -/
def clearSession (store : List Session) (userId : String) : List Session :=
  deleteByKey Session.userId store userId

/-! ### Store lemmas -/

theorem getByKey_putByKey_self (key : α → String) (v : α) (l : List α) :
    getByKey key (putByKey key v l) (key v) = some v := by
  induction l with
  | nil => simp [getByKey, putByKey]
  | cons w ws ih =>
    rw [putByKey]
    by_cases h : key w == key v
    · rw [if_pos h]
      simp [getByKey]
    · rw [if_neg h]
      simp only [getByKey, List.find?] at ih ⊢
      rw [show (key w == key v) = false by simpa using h]
      exact ih

theorem getByKey_putByKey_ne (key : α → String) (v : α) (l : List α)
    (k : String) (hk : k ≠ key v) :
    getByKey key (putByKey key v l) k = getByKey key l k := by
  have hvk : (key v == k) = false := by simpa using fun h => hk h.symm
  induction l with
  | nil => simp [getByKey, putByKey, hvk]
  | cons w ws ih =>
    rw [putByKey]
    by_cases h : key w == key v
    · rw [if_pos h]
      have hwk : (key w == k) = false := by
        have : key w = key v := by simpa using h
        rw [this]
        exact hvk
      simp only [getByKey, List.find?, hvk, hwk]
    · rw [if_neg h]
      simp only [getByKey, List.find?] at ih ⊢
      cases hwk : (key w == k) with
      | true => rfl
      | false => exact ih

theorem clearSession_of_missing {store : List Session} {u : String}
    (h : dbGet store u = none) : clearSession store u = store := by
  rw [clearSession, deleteByKey, List.filter_eq_self]
  intro s hs
  have := List.find?_eq_none.mp h s hs
  simpa using this

theorem saveSession_isOk (store : List Session) (now genId : String)
    (p : SessionPatch) :
    ∃ st, saveSession store now genId p = .ok (st, strOr p.userId genId) := by
  cases hh : dbGet store (strOr p.userId genId) with
  | none =>
    exact ⟨dbPut store
      { userId := strOr p.userId genId, createdAt := strOr p.createdAt now,
        updatedAt := now, profile := p.profile, skills := p.skills,
        resumeRaw := p.resumeRaw, jobs := p.jobs },
      by simp [saveSession, hh]⟩
  | some existing =>
    exact ⟨dbPut store (mergeSession existing p (strOr p.userId genId) now),
      by simp [saveSession, hh, updateSession, Except.map]⟩

/-! ### Claim theorems for the session store -/

/-- C6: for every existing session record and every partial update,
`updateSession` shallow-merges: top-level keys present in the partial
override, all other existing top-level keys are retained unchanged, the
stored `userId` always equals the original key even if the partial carries
a different `userId`, `updatedAt` is bumped to the current time, and
records under other keys are untouched. -/
theorem C6_updateSession_shallow_merge (store : List Session) (now u : String)
    (updates : SessionPatch) (existing : Session)
    (h : dbGet store u = some existing) :
    updateSession store now u updates =
      .ok (dbPut store (mergeSession existing updates u now)) ∧
    (mergeSession existing updates u now).userId = u ∧
    (mergeSession existing updates u now).updatedAt = now ∧
    dbGet (dbPut store (mergeSession existing updates u now)) u =
      some (mergeSession existing updates u now) ∧
    (∀ k, k ≠ u →
      dbGet (dbPut store (mergeSession existing updates u now)) k = dbGet store k) ∧
    (∀ v, updates.profile = some v → (mergeSession existing updates u now).profile = some v) ∧
    (updates.profile = none → (mergeSession existing updates u now).profile = existing.profile) ∧
    (∀ v, updates.skills = some v → (mergeSession existing updates u now).skills = some v) ∧
    (updates.skills = none → (mergeSession existing updates u now).skills = existing.skills) ∧
    (∀ v, updates.seniority = some v → (mergeSession existing updates u now).seniority = some v) ∧
    (updates.seniority = none → (mergeSession existing updates u now).seniority = existing.seniority) ∧
    (∀ v, updates.domains = some v → (mergeSession existing updates u now).domains = some v) ∧
    (updates.domains = none → (mergeSession existing updates u now).domains = existing.domains) ∧
    (∀ v, updates.resumeRaw = some v → (mergeSession existing updates u now).resumeRaw = some v) ∧
    (updates.resumeRaw = none → (mergeSession existing updates u now).resumeRaw = existing.resumeRaw) ∧
    (∀ v, updates.jobs = some v → (mergeSession existing updates u now).jobs = some v) ∧
    (updates.jobs = none → (mergeSession existing updates u now).jobs = existing.jobs) ∧
    (∀ v, updates.settings = some v → (mergeSession existing updates u now).settings = some v) ∧
    (updates.settings = none → (mergeSession existing updates u now).settings = existing.settings) ∧
    (∀ v, updates.createdAt = some v → (mergeSession existing updates u now).createdAt = v) ∧
    (updates.createdAt = none → (mergeSession existing updates u now).createdAt = existing.createdAt) := by
  have hkey : (mergeSession existing updates u now).userId = u := rfl
  refine ⟨by simp [updateSession, h], rfl, rfl, ?_, ?_, ?_⟩
  · have := getByKey_putByKey_self Session.userId (mergeSession existing updates u now) store
    rw [hkey] at this
    exact this
  · intro k hk
    have := getByKey_putByKey_ne Session.userId (mergeSession existing updates u now) store k
      (by rw [hkey]; exact hk)
    exact this
  · refine ⟨?_, ?_, ?_, ?_, ?_, ?_, ?_, ?_, ?_, ?_, ?_, ?_, ?_, ?_, ?_, ?_⟩ <;>
      first
        | (intro v hv; simp [mergeSession, hv])
        | (intro hv; simp [mergeSession, hv])

theorem C6_witness :
    ∃ st,
      updateSession
        [{ userId := "u", createdAt := "t0", updatedAt := "t0",
           skills := some ["old"], resumeRaw := some "cv" }] "t1" "u"
        { userId := some "evil", skills := some ["new"] } = .ok st ∧
      dbGet st "u" = some
        (mergeSession
          { userId := "u", createdAt := "t0", updatedAt := "t0",
            skills := some ["old"], resumeRaw := some "cv" }
          { userId := some "evil", skills := some ["new"] } "u" "t1") := by
  obtain ⟨heq, _, _, hget, _⟩ :=
    C6_updateSession_shallow_merge
      [{ userId := "u", createdAt := "t0", updatedAt := "t0",
         skills := some ["old"], resumeRaw := some "cv" }] "t1" "u"
      { userId := some "evil", skills := some ["new"] }
      { userId := "u", createdAt := "t0", updatedAt := "t0",
        skills := some ["old"], resumeRaw := some "cv" }
      (by decide)
  exact ⟨_, heq, hget⟩

/-- C5 counterexample: on a store with no record for `"u"`, the operations
`updateJobs`, `addJob`, `updateSkills` and `updateResume` do **not** degrade
to create-on-demand — each fails with the not-found error, because each
routes through `updateSession`. -/
theorem C5_counterexample :
    updateJobs [] "t" "u" [] = .error (MBError.notFound "u") ∧
    addJob [] "t" "u" { id := "j", title := "T", company := "C", url := "U" } =
      .error (MBError.notFound "u") ∧
    updateSkills [] "t" "u" ["TypeScript"] = .error (MBError.notFound "u") ∧
    updateResume [] "t" "u" "resume" = .error (MBError.notFound "u") :=
  ⟨rfl, rfl, rfl, rfl⟩

/-- C5 (amended): for a `userId` with no existing record, `save` and
`updateProfile` create on demand and `clear` is a no-op; but `updateJobs`,
`addJob`, `updateSkills` and `updateResume` all route through `update` and
fail with the not-found error, exactly like `update` itself. -/
theorem C5_missing_record_taxonomy (store : List Session) (now genId u : String)
    (h : dbGet store u = none) :
    (∀ p : SessionPatch, strOr p.userId genId = u →
      saveSession store now genId p =
        .ok (dbPut store
          { userId := u, createdAt := strOr p.createdAt now, updatedAt := now,
            profile := p.profile, skills := p.skills, resumeRaw := p.resumeRaw,
            jobs := p.jobs }, u)) ∧
    (∀ p : UserProfile, u ≠ "" →
      updateProfile store now genId u p =
        .ok (dbPut store
          { userId := u, createdAt := now, updatedAt := now,
            profile := some p })) ∧
    (∀ updates : SessionPatch,
      updateSession store now u updates = .error (.notFound u)) ∧
    (∀ jobs, updateJobs store now u jobs = .error (.notFound u)) ∧
    (∀ job, addJob store now u job = .error (.notFound u)) ∧
    (∀ skills, updateSkills store now u skills = .error (.notFound u)) ∧
    (∀ resume, updateResume store now u resume = .error (.notFound u)) ∧
    clearSession store u = store := by
  have herr : ∀ updates : SessionPatch,
      updateSession store now u updates = .error (.notFound u) := by
    intro updates
    simp [updateSession, h]
  refine ⟨?_, ?_, herr, ?_, ?_, ?_, ?_, clearSession_of_missing h⟩
  · intro p hp
    rw [saveSession]
    rw [hp, h]
  · intro p hu
    have hp : strOr (some u) genId = u := by simp [strOr, hu]
    rw [updateProfile, h]
    rw [saveSession]
    simp only [SessionPatch.userId, hp, h]
    rfl
  · intro jobs
    exact herr _
  · intro job
    rw [addJob]
    exact herr _
  · intro skills
    exact herr _
  · intro resume
    exact herr _

theorem C5_witness :
    dbGet [] "u" = none ∧
    updateProfile [] "t" "g" "u" { name := some "N" } =
      .ok (dbPut []
        { userId := "u", createdAt := "t", updatedAt := "t",
          profile := some { name := some "N" } }) ∧
    addJob [] "t" "u" { id := "j", title := "T", company := "C", url := "U" } =
      .error (MBError.notFound "u") ∧
    clearSession [] "u" = [] := by
  obtain ⟨-, hprof, -, -, hadd, -, -, hclear⟩ :=
    C5_missing_record_taxonomy [] "t" "g" "u" rfl
  exact ⟨rfl, hprof { name := some "N" } (by decide),
    hadd { id := "j", title := "T", company := "C", url := "U" }, hclear⟩

/-- C10: on the create path (`userId` has no existing record) `saveSession`
persists a record with exactly the fields `userId`, `createdAt`,
`updatedAt`, `profile`, `skills`, `resumeRaw` and `jobs` — the created
record's `settings` (and `seniority`, `domains`) is `none` even when the
input supplies one; on the update path (record exists) the call
shallow-merges, so a supplied `settings` value is retained in the stored
record. -/
theorem C10_saveSession_settings (store : List Session) (now genId : String)
    (p : SessionPatch) :
    (dbGet store (strOr p.userId genId) = none →
      saveSession store now genId p =
        .ok (dbPut store
          { userId := strOr p.userId genId
            createdAt := strOr p.createdAt now
            updatedAt := now
            profile := p.profile
            skills := p.skills
            seniority := none
            domains := none
            resumeRaw := p.resumeRaw
            jobs := p.jobs
            settings := none }, strOr p.userId genId)) ∧
    (∀ existing, dbGet store (strOr p.userId genId) = some existing →
      saveSession store now genId p =
        .ok (dbPut store (mergeSession existing p (strOr p.userId genId) now),
          strOr p.userId genId) ∧
      (∀ v, p.settings = some v →
        (mergeSession existing p (strOr p.userId genId) now).settings = some v)) := by
  constructor
  · intro h
    rw [saveSession]
    rw [h]
  · intro existing h
    constructor
    · rw [saveSession]
      rw [h, updateSession, h]
      rfl
    · intro v hv
      simp [mergeSession, hv]

theorem C10_witness :
    saveSession [] "t" "g"
      { userId := some "u",
        settings := some { jobSitePreferences := some [("X", "exclude")] } } =
      .ok (dbPut []
        { userId := "u", createdAt := "t", updatedAt := "t",
          profile := none, skills := none, seniority := none, domains := none,
          resumeRaw := none, jobs := none, settings := none }, "u") ∧
    ∃ existing,
      dbGet [{ userId := "u", createdAt := "t0", updatedAt := "t0" }] "u" = some existing ∧
      (mergeSession existing
        { userId := some "u",
          settings := some { jobSitePreferences := some [("X", "exclude")] } }
        "u" "t1").settings =
        some { jobSitePreferences := some [("X", "exclude")] } := by
  constructor
  · have h :=
      (C10_saveSession_settings [] "t" "g"
        { userId := some "u",
          settings := some { jobSitePreferences := some [("X", "exclude")] } }).1
        (by decide)
    simpa using h
  · refine ⟨{ userId := "u", createdAt := "t0", updatedAt := "t0" }, by decide, ?_⟩
    exact ((C10_saveSession_settings
      [{ userId := "u", createdAt := "t0", updatedAt := "t0" }] "t1" "g"
      { userId := some "u",
        settings := some { jobSitePreferences := some [("X", "exclude")] } }).2
      { userId := "u", createdAt := "t0", updatedAt := "t0" } (by decide)).2
      _ rfl

/-! ## Persistence of the vector store (`serialize` / `deserialize`)

Modelled from the spec: the durable `vectors` partition (`storage.ts` is
not among the sources) stores records "keyed by string id", so `db.put`
replaces the record with the same `id`.  `serialize()` clears the partition
and `put`s every in-memory vector; `deserialize()` replaces the in-memory
list with a field-by-field copy of every stored record; `clear()` empties
the in-memory list; `getAll()` returns a copy of it. -/

/-- `VectorDB.serialize`: the durable partition contents after
`db.clear('vectors')` followed by `db.put('vectors', v)` for each `v`. -/
def serialize (mem : List Vector) : List Vector :=
  mem.foldl (fun store v => putByKey Vector.id v store) []

/-- `VectorDB.clear`. -/
def clearVectors (_mem : List Vector) : List Vector := []

/-- `VectorDB.deserialize`: the previous in-memory state is replaced by the
stored records (`id`, `embedding`, `text`, `metadata` copied). -/
def deserializeInto (_mem : List Vector) (durable : List Vector) : List Vector :=
  durable.map fun v =>
    { id := v.id, embedding := v.embedding, text := v.text, metadata := v.metadata }

/-- `VectorDB.getAll` (returns a copy). -/
def getAllVectors (mem : List Vector) : List Vector := mem

theorem putByKey_of_key_not_mem (key : α → String) (v : α) (l : List α)
    (h : ∀ w ∈ l, key w ≠ key v) : putByKey key v l = l ++ [v] := by
  induction l with
  | nil => simp [putByKey]
  | cons w ws ih =>
    rw [putByKey, if_neg (by simpa using h w (by simp))]
    rw [ih fun w hw => h w (by simp [hw])]
    simp

theorem serialize_of_nodup_ids (mem : List Vector)
    (h : (mem.map Vector.id).Nodup) : serialize mem = mem := by
  suffices hgen : ∀ (ms acc : List Vector), (ms.map Vector.id).Nodup →
      (∀ w ∈ acc, w.id ∉ ms.map Vector.id) →
      ms.foldl (fun store v => putByKey Vector.id v store) acc = acc ++ ms by
    simpa using hgen mem [] h (by simp)
  intro ms
  induction ms with
  | nil => simp
  | cons v rest ih =>
    intro acc hnodup hacc
    rw [List.foldl_cons]
    have hput : putByKey Vector.id v acc = acc ++ [v] := by
      apply putByKey_of_key_not_mem
      intro w hw
      have := hacc w hw
      simp only [List.map_cons, List.mem_cons] at this
      exact fun hEq => this (Or.inl hEq)
    rw [hput]
    rw [List.map_cons, List.nodup_cons] at hnodup
    rw [ih (acc ++ [v]) hnodup.2 ?_]
    · simp
    · intro w hw
      rcases List.mem_append.mp hw with hw | hw
      · have := hacc w hw
        simp only [List.map_cons, List.mem_cons] at this
        exact fun hmem => this (Or.inr hmem)
      · rw [List.mem_singleton.mp hw]
        exact hnodup.1

theorem deserializeInto_copy (mem durable : List Vector) :
    deserializeInto mem durable = durable := by
  rw [deserializeInto]
  conv_rhs => rw [show durable = durable.map id from (List.map_id durable).symm]
  rfl

/-- C8 counterexample: for an index state holding two distinct entries with
the same `id`, the durable store (keyed by id) retains only the last one,
so serialize–clear–deserialize loses the first entry and the `getAll()`
sets differ. -/
theorem C8_counterexample :
    ({ id := "a", embedding := [1], text := "t1" } : Vector) ∈
      getAllVectors
        [{ id := "a", embedding := [1], text := "t1" },
         { id := "a", embedding := [1], text := "t2" }] ∧
    ({ id := "a", embedding := [1], text := "t1" } : Vector) ∉
      getAllVectors
        (deserializeInto
          (clearVectors
            [{ id := "a", embedding := [1], text := "t1" },
             { id := "a", embedding := [1], text := "t2" }])
          (serialize
            [{ id := "a", embedding := [1], text := "t1" },
             { id := "a", embedding := [1], text := "t2" }])) := by
  constructor
  · simp [getAllVectors]
  · intro hmem
    rw [deserializeInto_copy] at hmem
    have : serialize
        [{ id := "a", embedding := [1], text := "t1" },
         { id := "a", embedding := [1], text := "t2" }] =
        [{ id := "a", embedding := [1], text := "t2" }] := rfl
    rw [this] at hmem
    simp only [getAllVectors, List.mem_singleton, Vector.mk.injEq] at hmem
    exact absurd hmem.2.2.1 (by decide)

/-- C8 (amended): for every index state whose entry ids are pairwise
distinct, running `serialize()`, then `clear()`, then `deserialize()`
reproduces an index whose `getAll()` set of entries (by id, embedding,
text and tags; order-independent and value-exact) equals the set before the
clear — here the list itself is reproduced exactly; and both persistence
operations tolerate an empty store as a no-op rather than an error
(`serialize` of an empty index empties the partition, `deserialize` of an
empty partition yields an empty index). -/
theorem C8_serialize_roundtrip (mem : List Vector)
    (h : (mem.map Vector.id).Nodup) :
    getAllVectors (deserializeInto (clearVectors mem) (serialize mem)) =
      getAllVectors mem ∧
    (∀ v : Vector,
      v ∈ getAllVectors (deserializeInto (clearVectors mem) (serialize mem)) ↔
      v ∈ getAllVectors mem) ∧
    serialize [] = [] ∧
    (∀ m : List Vector, deserializeInto m [] = []) := by
  have heq : getAllVectors (deserializeInto (clearVectors mem) (serialize mem)) =
      getAllVectors mem := by
    rw [deserializeInto_copy, getAllVectors, getAllVectors, serialize_of_nodup_ids mem h]
  exact ⟨heq, fun v => by rw [heq], rfl, fun m => rfl⟩

theorem C8_witness :
    getAllVectors
      (deserializeInto
        (clearVectors
          [{ id := "a", embedding := [1], text := "t1" },
           { id := "b", embedding := [], text := "t2",
             metadata := some { type := some "job" } }])
        (serialize
          [{ id := "a", embedding := [1], text := "t1" },
           { id := "b", embedding := [], text := "t2",
             metadata := some { type := some "job" } }])) =
      getAllVectors
        [{ id := "a", embedding := [1], text := "t1" },
         { id := "b", embedding := [], text := "t2",
           metadata := some { type := some "job" } }] :=
  (C8_serialize_roundtrip
    [{ id := "a", embedding := [1], text := "t1" },
     { id := "b", embedding := [], text := "t2",
       metadata := some { type := some "job" } }]
    (by decide)).1

/-! ## The job-matching pass (`useJobMatcher.ts`, queryFn)

The pure scoring pass of the `useQuery` function, from the loaded session
to the returned list: build the query text from skills, resume and profile
form data; when it trims to empty, return the job list unchanged; otherwise
embed it, rank with `findSimilarJobs(userEmbedding, jobs.length)`, map the
scores back onto the jobs (preserving a job's prior `matchScore` when the
ranking has no entry for its id), sort by score descending, and apply the
site-preference filter.  `db` is the vector-store state at ranking time
(after the ensure-embedded step, which only inserts vectors); the I/O
wrappers (deserialize, session load, the ensure-embedded insertion loop,
and the swallowed `updateJobs` write-back) are outside this pure pass. -/

/-- `Array.prototype.join(' ')`. -/
def joinSpace : List String → String
  | [] => ""
  | [s] => s
  | s :: rest => s ++ " " ++ joinSpace rest

/-- `String.prototype.trim` on the ASCII-whitespace model. -/
def trimWs (s : String) : String :=
  String.mk (((s.data.dropWhile isWs).reverse.dropWhile isWs).reverse)

/-- The `parts` array: skills (when present and non-empty), `resumeRaw`
(when truthy), `formData.step1?.currentTitle` (when truthy),
`formData.step2?.techStack` and `formData.step2?.roleKeywords` (when
present and non-empty), in this order. -/
def buildQueryParts (skills : Option (List String)) (resumeRaw : Option String)
    (currentTitle : Option String)
    (techStack roleKeywords : Option (List String)) : List String :=
  (match skills with
   | some l => if l.length > 0 then l else []
   | none => []) ++
  (match resumeRaw with
   | some r => if r = "" then [] else [r]
   | none => []) ++
  (match currentTitle with
   | some t => if t = "" then [] else [t]
   | none => []) ++
  (match techStack with
   | some l => if l.length > 0 then l else []
   | none => []) ++
  (match roleKeywords with
   | some l => if l.length > 0 then l else []
   | none => [])

/-- Lookup in `matchMap = new Map(similarJobs.map(m => [m.jobId, m]))`:
for duplicate keys the `Map` constructor keeps the **last** entry. -/
def lookupMatch (similar : List JobMatch) (id : String) : Option JobMatch :=
  similar.reverse.find? fun m => m.jobId == some id

/-- The score-merge map:
`newScore = match !== undefined ? match.score : (job.matchScore ?? 0)`.
Every score in a `findSimilarJobs` result is a finite value (its `NaN`
scores are removed by the `score > 0` filter and the clamp removes the
infinities), so reading it with `JsNum.toQ` is exact. -/
def scoreJobs (jobs : List Job) (similar : List JobMatch) : List Job :=
  jobs.map fun job =>
    { job with
      matchScore := some
        (match lookupMatch similar job.id with
         | some m => m.score.toQ
         | none => job.matchScore.getD 0) }

/-- The comparator `(a, b) => (b.matchScore || 0) - (a.matchScore || 0)`. -/
def jobScoreDesc (a b : Job) : Bool :=
  decide (b.matchScore.getD 0 ≤ a.matchScore.getD 0)

/-- The queryFn scoring pass of `useJobMatcher`. -/
def runJobMatch (sqrt : ℚ → ℚ) (db : List Vector) (jobs : List Job)
    (skills : Option (List String)) (resumeRaw currentTitle : Option String)
    (techStack roleKeywords : Option (List String))
    (prefs : List (String × String)) : List Job :=
  if jobs.length = 0 then []
  else
    let queryText :=
      trimWs (joinSpace (buildQueryParts skills resumeRaw currentTitle techStack roleKeywords))
    if queryText = "" then jobs
    else
      let userEmbedding := generateEmbedding queryText
      let similar := findSimilarJobs sqrt db userEmbedding jobs.length
      filterAndPrioritizeJobs (sortBy jobScoreDesc (scoreJobs jobs similar)) prefs

theorem scoreJobs_length (jobs : List Job) (similar : List JobMatch) :
    (scoreJobs jobs similar).length = jobs.length :=
  List.length_map _ _

/-- C4: on a non-empty job list, when the concatenated query text is empty
after trimming the pass returns the job list (hence every `matchScore`)
unchanged; otherwise each job's new `matchScore` is the ranking entry for
its id when one exists (even when that score is 0), and its prior
`matchScore` (default 0) when the ranking result has no entry for it — a
previously computed score is never regressed to 0 — and the returned list
is the score-sorted, site-filtered version of the rescored jobs. -/
theorem C4_scoring_pass (sqrt : ℚ → ℚ) (db : List Vector) (jobs : List Job)
    (skills : Option (List String)) (resumeRaw currentTitle : Option String)
    (techStack roleKeywords : Option (List String))
    (prefs : List (String × String))
    (hne : jobs ≠ []) :
    (trimWs (joinSpace (buildQueryParts skills resumeRaw currentTitle techStack roleKeywords)) = "" →
      runJobMatch sqrt db jobs skills resumeRaw currentTitle techStack roleKeywords prefs = jobs) ∧
    (trimWs (joinSpace (buildQueryParts skills resumeRaw currentTitle techStack roleKeywords)) ≠ "" →
      (runJobMatch sqrt db jobs skills resumeRaw currentTitle techStack roleKeywords prefs =
        filterAndPrioritizeJobs
          (sortBy jobScoreDesc
            (scoreJobs jobs
              (findSimilarJobs sqrt db
                (generateEmbedding
                  (trimWs (joinSpace (buildQueryParts skills resumeRaw currentTitle techStack roleKeywords))))
                jobs.length)))
          prefs) ∧
      (∀ similar : List JobMatch, ∀ i, ∀ hi : i < jobs.length,
        (scoreJobs jobs similar).get ⟨i, by rw [scoreJobs_length]; exact hi⟩ =
          { jobs.get ⟨i, hi⟩ with
            matchScore := some
              (match lookupMatch similar (jobs.get ⟨i, hi⟩).id with
               | some m => m.score.toQ
               | none => (jobs.get ⟨i, hi⟩).matchScore.getD 0) })) := by
  have hlen : jobs.length ≠ 0 := by
    simpa using fun hz => hne (List.length_eq_zero.mp hz)
  constructor
  · intro h
    rw [runJobMatch, if_neg hlen]
    simp [h]
  · intro h
    refine ⟨?_, ?_⟩
    · rw [runJobMatch, if_neg hlen]
      simp only [if_neg h]
    · intro similar i hi
      simp [scoreJobs]

theorem C4_witness :
    runJobMatch (fun q => q) []
      [{ id := "j1", title := "T", company := "C", url := "U", matchScore := some 5 }]
      none none none none none [] =
      [{ id := "j1", title := "T", company := "C", url := "U", matchScore := some 5 }] ∧
    (scoreJobs
        [{ id := "j1", title := "T", company := "C", url := "U", matchScore := some 5 }]
        []).get ⟨0, by rw [scoreJobs_length]; decide⟩ =
      { id := "j1", title := "T", company := "C", url := "U", matchScore := some 5 } := by
  constructor
  · exact (C4_scoring_pass (fun q => q) []
      [{ id := "j1", title := "T", company := "C", url := "U", matchScore := some 5 }]
      none none none none none [] (by simp)).1 (by decide)
  · exact ((C4_scoring_pass (fun q => q) []
      [{ id := "j1", title := "T", company := "C", url := "U", matchScore := some 5 }]
      (some ["python"]) none none none none [] (by simp)).2 (by decide)).2 [] 0 (by decide)

end JobsearchAI
